import Mathlib

set_option maxRecDepth 1000000

/-!
# Verification of the technical-indicator and ranking core of `main.py`

Shallow embedding of the indicator engine, signal classifier, stock
analyzer, ranker (`get_top_movers`) and market summary of the repository.

Modelling conventions, used throughout:

* Prices, volumes and derived quantities are `ℚ`.  The source works on
  IEEE doubles via pandas/numpy; those operations never raise on zero
  denominators but produce non-finite values (`inf`/`NaN`).  A computation
  whose result can be non-finite is modelled as `Option ℚ`, with `none`
  standing for a non-finite float (`NaN` or `±inf` — the claims never need
  to distinguish them).  Comparisons against a possibly-`NaN` value follow
  IEEE semantics: every comparison with `NaN` is false.
* The one place where a division is modelled as plain `ℚ` division is
  `daily_change_pct` (`(last - prev) / prev * 100`): a previous close of
  `0` would give a non-finite float in the source, while `ℚ` gives `0`.
  Market closes are never `0`; no theorem below depends on that point.
* `yfinance` I/O is injected: the per-ticker history and static info are
  function arguments instead of being fetched inside `analyze_stock`.
* Python's `round(x, n)` (round-half-to-even at `n` decimal places) is
  modelled exactly on `ℚ` by `pyRound`; binary-float representation
  artifacts of the source are out of scope.
-/

/-- One daily bar of a price history (`hist` rows).  The source uses only
the `High`, `Low`, `Close` and `Volume` columns; `Open` and the date index
are never read by the core and are omitted. -/
structure Bar where
  high : ℚ
  low : ℚ
  close : ℚ
  volume : ℚ
deriving DecidableEq

/-- Static per-ticker info (`ticker.info`): the three keys the source reads
with `.get` and a default. -/
structure StaticInfo where
  shortName : Option String
  sector : Option String
  marketCap : Option ℤ
deriving DecidableEq

/-- The three qualitative signals built by `get_technical_signals`; the
source stores them as strings, which we keep verbatim. -/
structure Signals where
  rsi_signal : String
  trend_signal : String
  ma_signal : String
deriving DecidableEq

/-- The per-ticker record returned by `analyze_stock`.  Fields that can be
`NaN` in the source even under the 50-bar guard (`rsi` on a flat window,
`position_52w` on a flat range) are `Option ℚ`. -/
structure StockData where
  symbol : String
  company_name : String
  sector : String
  current_price : ℚ
  daily_change_pct : ℚ
  rsi : Option ℚ
  sma20 : ℚ
  sma50 : ℚ
  ema12 : ℚ
  ema26 : ℚ
  volume_ratio : ℚ
  high_52w : ℚ
  low_52w : ℚ
  position_52w : Option ℚ
  atr : ℚ
  signals : Signals
  market_cap : ℤ
deriving DecidableEq

/-- A record together with the `movement_score` key that `get_top_movers`
adds to the dict before sorting. -/
structure ScoredStock where
  data : StockData
  movement_score : ℚ
deriving DecidableEq

/-- Floor of a rational as an integer (`num / den` with Euclidean
division; the denominator is positive, so this is the floor).  Used
instead of `Int.floor` so that concrete instances reduce in the kernel. -/
def ratFloor (q : ℚ) : ℤ := q.num / (q.den : ℤ)

/-- Rounding to the nearest integer, halves up (the non-tie branch of
`pyRound`, where it agrees with every nearest-integer rule). -/
def ratRound (q : ℚ) : ℤ := ratFloor (q + 1 / 2)

/-- Python `round(x, n)`: round to `n` decimal places, ties to even. -/
def pyRound (n : ℕ) (x : ℚ) : ℚ :=
  let y : ℚ := x * 10 ^ n
  let f : ℤ := ratFloor y
  let r : ℤ := if y - f = 1 / 2 then (if f % 2 = 0 then f else f + 1) else ratRound y
  (r : ℚ) / 10 ^ n

/-- pandas `s.iloc[-k]` for `1 ≤ k ≤ s.length` (defaulting to `0` out of
range; every use below is guarded by a length check, as in the source). -/
def ilocNeg (l : List ℚ) (k : ℕ) : ℚ :=
  l.getD (l.length - k) 0

/-- The last `w` entries of a series (the window of
`rolling(w)` at the final position). -/
def lastWindow (w : ℕ) (l : List ℚ) : List ℚ :=
  l.drop (l.length - w)

/-- pandas `s.rolling(w).mean().iloc[-1]`: `NaN` (`none`) when fewer than
`w` observations exist, else the arithmetic mean of the last `w`. -/
def rollingMeanLast (w : ℕ) (l : List ℚ) : Option ℚ :=
  if l.length < w then none else some ((lastWindow w l).sum / w)

/-- The `Close` column of a history. -/
def closes (hist : List Bar) : List ℚ := hist.map (·.close)

/-- The `High` column of a history. -/
def highs (hist : List Bar) : List ℚ := hist.map (·.high)

/-- The `Low` column of a history. -/
def lows (hist : List Bar) : List ℚ := hist.map (·.low)

/-- The `Volume` column of a history. -/
def volumes (hist : List Bar) : List ℚ := hist.map (·.volume)

/-- `prices.diff()` without its leading `NaN`: consecutive differences
`c_i - c_(i-1)`. -/
def deltas (l : List ℚ) : List ℚ :=
  (l.zip l.tail).map fun p => p.2 - p.1

/-- The gain series of `calculate_rsi`: `delta.where(delta > 0, 0)`.
The leading `NaN` of `diff()` fails the `> 0` test, so `where` replaces it
by `0`; subsequent entries are `max δ 0`. -/
def gains (l : List ℚ) : List ℚ :=
  match l with
  | [] => []
  | _ :: _ => 0 :: (deltas l).map fun d => max d 0

/-- The loss series of `calculate_rsi`: `-delta.where(delta < 0, 0)`.
The leading `NaN` becomes `0` as in `gains`; subsequent entries are
`max (-δ) 0`. -/
def losses (l : List ℚ) : List ℚ :=
  match l with
  | [] => []
  | _ :: _ => 0 :: (deltas l).map fun d => max (-d) 0

/-- `gain.rolling(window=14).mean().iloc[-1]` of `calculate_rsi`. -/
def avg_gain (l : List ℚ) : Option ℚ := rollingMeanLast 14 (gains l)

/-- `loss.rolling(window=14).mean().iloc[-1]` of `calculate_rsi`. -/
def avg_loss (l : List ℚ) : Option ℚ := rollingMeanLast 14 (losses l)

/-- `calculate_rsi(prices, period=14)`.  The source computes
`rs = gain/loss; rsi = 100 - 100/(1+rs)` with float semantics and no
guard, then takes `iloc[-1]`:

* fewer than 14 bars: the rolling means are `NaN`, so the result is `NaN`
  (`none`);
* `avgLoss > 0`: an ordinary finite value;
* `avgLoss = 0 < avgGain`: `rs = +inf`, so `rsi = 100 - 100/inf = 100`;
* `avgLoss = avgGain = 0` (flat window): `rs = 0/0 = NaN`, so `rsi = NaN`
  (`none`). -/
def calculate_rsi (prices : List ℚ) : Option ℚ :=
  match avg_gain prices, avg_loss prices with
  | some g, some lo =>
    if lo = 0 then (if g = 0 then none else some 100)
    else some (100 - 100 / (1 + g / lo))
  | _, _ => none

/-- `calculate_sma(prices, period)`: trailing mean of the last `period`
closes.  The source returns `NaN` when fewer than `period` bars exist;
every call sits behind the 50-bar guard of `analyze_stock`, where the two
agree, so the total `ℚ` version is used. -/
def calculate_sma (prices : List ℚ) (period : ℕ) : ℚ :=
  (lastWindow period prices).sum / period

/-- `calculate_ema(prices, period)`:
`prices.ewm(span=period, adjust=False).mean().iloc[-1]`, i.e. the
recursion `y₀ = x₀`, `yᵢ = (1-α) yᵢ₋₁ + α xᵢ` with `α = 2/(period+1)`.
On an empty series the source raises (`iloc[-1]`); that is unreachable
behind the 50-bar guard and we return `0` there. -/
def calculate_ema (prices : List ℚ) (period : ℕ) : ℚ :=
  let α : ℚ := 2 / (period + 1)
  match prices with
  | [] => 0
  | x :: xs => xs.foldl (fun acc c => (1 - α) * acc + α * c) x

/-- IEEE-style `x > t` where `x` may be `NaN` (`none`): false on `NaN`. -/
def nanGt (x : Option ℚ) (t : ℚ) : Bool :=
  match x with
  | some r => decide (t < r)
  | none => false

/-- IEEE-style `x < t` where `x` may be `NaN` (`none`): false on `NaN`. -/
def nanLt (x : Option ℚ) (t : ℚ) : Bool :=
  match x with
  | some r => decide (r < t)
  | none => false

/-- `get_technical_signals(rsi, price, sma20, sma50)`.  The `rsi` argument
is `Option ℚ` because the source can feed it a `NaN` (flat 14-bar window);
both `rsi > 70` and `rsi < 30` are then false and the label is
`"Neutral"`, exactly as in IEEE comparison semantics.  Python's chained
`price > sma20 > sma50` is `(price > sma20) and (sma20 > sma50)`. -/
def get_technical_signals (rsi : Option ℚ) (price sma20 sma50 : ℚ) : Signals :=
  { rsi_signal :=
      if nanGt rsi 70 then "Sobrecompra"
      else if nanLt rsi 30 then "Sobreventa"
      else "Neutral"
    trend_signal :=
      if price > sma20 ∧ sma20 > sma50 then "Alcista"
      else if price < sma20 ∧ sma20 < sma50 then "Bajista"
      else "Mixta/Consolidación"
    ma_signal :=
      if sma20 > sma50 then "Golden Cross (alcista)"
      else "Death Cross (bajista)" }

/-- `hist['Close'].iloc[-1]`. -/
def current_price_raw (hist : List Bar) : ℚ := ilocNeg (closes hist) 1

/-- `hist['Close'].iloc[-2]`. -/
def previous_close_raw (hist : List Bar) : ℚ := ilocNeg (closes hist) 2

/-- `daily_change_pct = ((current_price - previous_close) / previous_close) * 100`
before rounding.  See the module comment for the `previous_close = 0`
caveat. -/
def daily_change_raw (hist : List Bar) : ℚ :=
  (current_price_raw hist - previous_close_raw hist) / previous_close_raw hist * 100

/-- `hist['High'].max()` (the history is nonempty behind the guard; `0`
on the empty list). -/
def high_52w_raw (hist : List Bar) : ℚ := ((highs hist).max?).getD 0

/-- `hist['Low'].min()` (the history is nonempty behind the guard; `0`
on the empty list). -/
def low_52w_raw (hist : List Bar) : ℚ := ((lows hist).min?).getD 0

/-- `position_52w = ((current_price - low_52w) / (high_52w - low_52w)) * 100`.
The source division is unguarded: on a flat range (`high = low`) numpy
yields a non-finite value (`0/0 = NaN`, or `±inf` for a nonzero
numerator) without raising; that outcome is `none`. -/
def position_52w_raw (hist : List Bar) : Option ℚ :=
  if high_52w_raw hist = low_52w_raw hist then none
  else some ((current_price_raw hist - low_52w_raw hist) /
    (high_52w_raw hist - low_52w_raw hist) * 100)

/-- `avg_volume = hist['Volume'].rolling(20).mean().iloc[-1]` (the window
is full behind the 50-bar guard, so the total mean is used). -/
def avg_volume (hist : List Bar) : ℚ :=
  (lastWindow 20 (volumes hist)).sum / 20

/-- `current_volume = hist['Volume'].iloc[-1]`. -/
def current_volume (hist : List Bar) : ℚ := ilocNeg (volumes hist) 1

/-- `volume_ratio = current_volume / avg_volume if avg_volume > 0 else 1`. -/
def volume_ratio_raw (hist : List Bar) : ℚ :=
  if avg_volume hist > 0 then current_volume hist / avg_volume hist else 1

/-- The true-range series from the second bar on:
`max(high - low, |high - prevClose|, |low - prevClose|)`.  In the source
the first bar's entry is `NaN` (`Close.shift()` has no previous close) and
`np.max` propagates it; behind the 50-bar guard the trailing 14-bar window
never reaches that first entry, so it is dropped here. -/
def true_ranges (hist : List Bar) : List ℚ :=
  (hist.zip hist.tail).map fun p =>
    max (p.2.high - p.2.low) (max |p.2.high - p.1.close| |p.2.low - p.1.close|)

/-- `atr = true_range.rolling(14).mean().iloc[-1]` before rounding. -/
def atr_raw (hist : List Bar) : ℚ :=
  (lastWindow 14 (true_ranges hist)).sum / 14

/-- `analyze_stock(symbol)`.  The history and `ticker.info` are injected
(the source fetches them from yfinance inside the function).  The guard
`if hist.empty or len(hist) < 50: return None` collapses to the single
length test, and `except`-to-`None` covers no further cases in this pure
model.  Every numeric field is stored `round`ed exactly as in the source
dict literal; the signals are computed from the raw (unrounded) values,
since the source calls `get_technical_signals` before the dict literal
rounds anything. -/
def analyze_stock (symbol : String) (hist : List Bar) (info : StaticInfo) :
    Option StockData :=
  if hist.length < 50 then none
  else
    some
      { symbol := symbol
        company_name := info.shortName.getD symbol
        sector := info.sector.getD "N/A"
        current_price := pyRound 2 (current_price_raw hist)
        daily_change_pct := pyRound 2 (daily_change_raw hist)
        rsi := (calculate_rsi (closes hist)).map fun r => pyRound 1 r
        sma20 := pyRound 2 (calculate_sma (closes hist) 20)
        sma50 := pyRound 2 (calculate_sma (closes hist) 50)
        ema12 := pyRound 2 (calculate_ema (closes hist) 12)
        ema26 := pyRound 2 (calculate_ema (closes hist) 26)
        volume_ratio := pyRound 2 (volume_ratio_raw hist)
        high_52w := pyRound 2 (high_52w_raw hist)
        low_52w := pyRound 2 (low_52w_raw hist)
        position_52w := (position_52w_raw hist).map fun p => pyRound 1 p
        atr := pyRound 2 (atr_raw hist)
        signals := get_technical_signals (calculate_rsi (closes hist))
          (current_price_raw hist) (calculate_sma (closes hist) 20)
          (calculate_sma (closes hist) 50)
        market_cap := info.marketCap.getD 0 }

/-- The accumulating loop of `get_top_movers`: one `analyze_stock` call per
watchlist symbol, keeping the successes in scan order, each with
`movement_score = abs(data['daily_change_pct']) * data['volume_ratio']`
attached (computed from the stored, already-rounded fields). -/
def analyzed_stocks (fetch : String → List Bar) (info : String → StaticInfo)
    (watchlist : List String) : List ScoredStock :=
  watchlist.filterMap fun symbol =>
    (analyze_stock symbol (fetch symbol) (info symbol)).map fun d =>
      { data := d, movement_score := |d.daily_change_pct| * d.volume_ratio }

/-- The comparison under
`analyzed_stocks.sort(key=lambda x: x['movement_score'], reverse=True)`:
descending by score.  Python's `list.sort` is stable and `reverse=True`
keeps equal-key elements in their original order, which is exactly
`List.mergeSort` with this `le`. -/
def scoreLe (a b : ScoredStock) : Bool :=
  decide (b.movement_score ≤ a.movement_score)

/-- `get_top_movers(limit=5)`: analyze the watchlist, sort the successes
by `movement_score` descending (stably), return the first `limit`
(`analyzed_stocks[:limit]`; the slice with a natural `limit` is `take`). -/
def get_top_movers (fetch : String → List Bar) (info : String → StaticInfo)
    (watchlist : List String) (limit : ℕ) : List ScoredStock :=
  ((analyzed_stocks fetch info watchlist).mergeSort scoreLe).take limit

/-- A market-summary field that is either a number or the string `"N/A"`
(the source mixes both in one dict). -/
inductive NumNA where
  | num (q : ℚ)
  | na
deriving DecidableEq

/-- The dict returned by `get_market_summary`. -/
structure MarketSummary where
  spy_change : NumNA
  qqq_change : NumNA
  vix : NumNA
  spy_trend : String
deriving DecidableEq

/-- The `except:` branch of `get_market_summary`:
`{"spy_change": 0, "qqq_change": 0, "vix": "N/A", "spy_trend": "N/A"}`. -/
def fallback_summary : MarketSummary :=
  { spy_change := NumNA.num 0, qqq_change := NumNA.num 0,
    vix := NumNA.na, spy_trend := "N/A" }

/-- `get_market_summary()`.  The three `history` fetches are injected as
`Option` close-series: `none` models a raising fetch.  Inside the `try`,
`spy` needs `iloc[-1]`, `iloc[-2]` and `iloc[-5]` (so at least 5 bars) and
`qqq` needs `iloc[-2]` (at least 2); a shorter series raises `IndexError`
and lands in the `except` branch.  The `vix` series is only guarded by
`if not vix.empty`. -/
def get_market_summary (spy qqq vix : Option (List ℚ)) : MarketSummary :=
  match spy, qqq, vix with
  | some s, some q, some v =>
    if 5 ≤ s.length ∧ 2 ≤ q.length then
      { spy_change := NumNA.num (pyRound 2 ((ilocNeg s 1 - ilocNeg s 2) / ilocNeg s 2 * 100))
        qqq_change := NumNA.num (pyRound 2 ((ilocNeg q 1 - ilocNeg q 2) / ilocNeg q 2 * 100))
        vix := if v.isEmpty then NumNA.na else NumNA.num (pyRound 2 (ilocNeg v 1))
        spy_trend := if ilocNeg s 1 > ilocNeg s 5 then "Alcista" else "Bajista" }
    else fallback_summary
  | _, _, _ => fallback_summary

/-- Modelled from the claim sentence of C9 (not from the source): a
summary in which every field carries an explicit unavailable marker. -/
def all_unavailable (m : MarketSummary) : Prop :=
  m.spy_change = NumNA.na ∧ m.qqq_change = NumNA.na ∧
    m.vix = NumNA.na ∧ m.spy_trend = "N/A"

instance (m : MarketSummary) : Decidable (all_unavailable m) := by
  unfold all_unavailable
  infer_instance

/-! ## Shared concrete inputs for witnesses -/

/-- A flat bar: constant price 100, zero volume. -/
def flatBar : Bar := { high := 100, low := 100, close := 100, volume := 0 }

/-- A 50-bar flat history: long enough for every indicator. -/
def histFlat50 : List Bar := List.replicate 50 flatBar

/-- A 60-bar flat history (the flat 52-week-range scenario of the spec). -/
def histFlat60 : List Bar := List.replicate 60 flatBar

/-- A 10-bar history: fails the 50-bar guard. -/
def histShort10 : List Bar := List.replicate 10 flatBar

/-- Static info with every key missing, so every default fires. -/
def infoEmpty : StaticInfo := { shortName := none, sector := none, marketCap := none }

/-- The record `analyze_stock` produces on `histFlat50`. -/
def recFlat50 : StockData :=
  { symbol := "B", company_name := "B", sector := "N/A",
    current_price := 100, daily_change_pct := 0, rsi := none,
    sma20 := 100, sma50 := 100, ema12 := 100, ema26 := 100,
    volume_ratio := 1, high_52w := 100, low_52w := 100,
    position_52w := none, atr := 0,
    signals := { rsi_signal := "Neutral", trend_signal := "Mixta/Consolidación",
                 ma_signal := "Death Cross (bajista)" },
    market_cap := 0 }

/-! ## C7 / C8: the signal classifier -/

/-- C7: for all inputs, the trend signal is Bullish (`"Alcista"`) iff
`price > SMA20` and `SMA20 > SMA50` hold strictly, Bearish (`"Bajista"`)
iff `price < SMA20` and `SMA20 < SMA50` hold strictly, and Mixed
(`"Mixta/Consolidación"`) in every other case; in particular
`price = SMA20` yields Mixed (last conjunct, with `sma20 := price`). -/
theorem trend_signal_spec (rsi : Option ℚ) (price sma20 sma50 : ℚ) :
    ((get_technical_signals rsi price sma20 sma50).trend_signal = "Alcista" ↔
      price > sma20 ∧ sma20 > sma50) ∧
    ((get_technical_signals rsi price sma20 sma50).trend_signal = "Bajista" ↔
      price < sma20 ∧ sma20 < sma50) ∧
    ((get_technical_signals rsi price sma20 sma50).trend_signal = "Mixta/Consolidación" ↔
      ¬(price > sma20 ∧ sma20 > sma50) ∧ ¬(price < sma20 ∧ sma20 < sma50)) ∧
    (get_technical_signals rsi price price sma50).trend_signal = "Mixta/Consolidación" := by
  refine ⟨?_, ?_, ?_, ?_⟩ <;>
    simp only [get_technical_signals] <;>
    split_ifs with h1 h2 <;>
    simp_all <;>
    (intro h; linarith [h1.1, h1.2])

/-- Witness for C7 at concrete inputs. -/
theorem trend_signal_spec_witness :
    ((get_technical_signals none 3 2 1).trend_signal = "Alcista" ↔
      (3:ℚ) > 2 ∧ (2:ℚ) > 1) ∧
    ((get_technical_signals none 3 2 1).trend_signal = "Bajista" ↔
      (3:ℚ) < 2 ∧ (2:ℚ) < 1) ∧
    ((get_technical_signals none 3 2 1).trend_signal = "Mixta/Consolidación" ↔
      ¬((3:ℚ) > 2 ∧ (2:ℚ) > 1) ∧ ¬((3:ℚ) < 2 ∧ (2:ℚ) < 1)) ∧
    (get_technical_signals none 3 3 1).trend_signal = "Mixta/Consolidación" :=
  trend_signal_spec none 3 2 1

/-- C8: for all inputs, the moving-average signal is
`"Golden Cross (alcista)"` iff `SMA20 > SMA50` strictly, and
`"Death Cross (bajista)"` otherwise; in particular `SMA20 = SMA50` yields
Death Cross (last conjunct, with both arguments equal). -/
theorem ma_signal_spec (rsi : Option ℚ) (price sma20 sma50 : ℚ) :
    ((get_technical_signals rsi price sma20 sma50).ma_signal = "Golden Cross (alcista)" ↔
      sma20 > sma50) ∧
    ((get_technical_signals rsi price sma20 sma50).ma_signal = "Death Cross (bajista)" ↔
      ¬ sma20 > sma50) ∧
    (get_technical_signals rsi price sma50 sma50).ma_signal = "Death Cross (bajista)" := by
  refine ⟨?_, ?_, ?_⟩ <;>
    simp only [get_technical_signals] <;>
    split_ifs with h1 <;>
    simp_all

/-- Witness for C8 at concrete inputs. -/
theorem ma_signal_spec_witness :
    ((get_technical_signals none 3 2 1).ma_signal = "Golden Cross (alcista)" ↔
      (2:ℚ) > 1) ∧
    ((get_technical_signals none 3 2 1).ma_signal = "Death Cross (bajista)" ↔
      ¬ (2:ℚ) > 1) ∧
    (get_technical_signals none 3 1 1).ma_signal = "Death Cross (bajista)" :=
  ma_signal_spec none 3 2 1

/-! ## C4: zero average volume -/

/-- `round(1, 2) = 1`. -/
theorem pyRound_two_one : pyRound 2 1 = 1 := by with_unfolding_all decide

/-- C4: whenever the trailing 20-bar mean volume is zero (and the 50-bar
guard passes, so a record is produced at all), the stored volume ratio is
exactly `1`, by the `if avg_volume > 0 else 1` guard, never a division by
zero. -/
theorem volume_ratio_zero_mean_neutral (symbol : String) (hist : List Bar)
    (info : StaticInfo) (h50 : 50 ≤ hist.length) (hz : avg_volume hist = 0) :
    ∃ d, analyze_stock symbol hist info = some d ∧ d.volume_ratio = 1 := by
  have hguard : ¬ hist.length < 50 := by omega
  unfold analyze_stock
  rw [if_neg hguard]
  refine ⟨_, rfl, ?_⟩
  show pyRound 2 (volume_ratio_raw hist) = 1
  unfold volume_ratio_raw
  rw [hz]
  norm_num [pyRound_two_one]

/-- Witness for C4: a 50-bar zero-volume history. -/
theorem volume_ratio_zero_mean_neutral_witness :
    50 ≤ histFlat50.length ∧ avg_volume histFlat50 = 0 ∧
    ∃ d, analyze_stock "B" histFlat50 infoEmpty = some d ∧ d.volume_ratio = 1 :=
  ⟨by with_unfolding_all decide, by with_unfolding_all decide,
    volume_ratio_zero_mean_neutral "B" histFlat50 infoEmpty
      (by with_unfolding_all decide) (by with_unfolding_all decide)⟩

/-! ## C6: flat 52-week range -/

/-- C6, counterexample to the claim as stated: on the flat 60-bar series
(constant close = high = low = 100) `analyze_stock` does return a record
(the division does not raise), but the stored 52-week position is the
propagated non-finite `0/0` (`none`), not any documented numeric fallback
value. -/
theorem position_52w_counterexample :
    (analyze_stock "F" histFlat60 infoEmpty).isSome = true ∧
    ((analyze_stock "F" histFlat60 infoEmpty).bind fun d => d.position_52w) = none := by
  with_unfolding_all decide

/-- C6 amended: for every history passing the 50-bar guard whose maximum
high equals its minimum low, `analyze_stock` still returns a record (no
division error aborts it), and that record's `position_52w` is the
non-finite marker `none` (`NaN` in the source), consistently — but it is
an unguarded `0/0`, not a documented fallback number. -/
theorem position_52w_flat_nan (symbol : String) (hist : List Bar) (info : StaticInfo)
    (h50 : 50 ≤ hist.length) (hflat : high_52w_raw hist = low_52w_raw hist) :
    ∃ d, analyze_stock symbol hist info = some d ∧ d.position_52w = none := by
  have hguard : ¬ hist.length < 50 := by omega
  unfold analyze_stock
  rw [if_neg hguard]
  refine ⟨_, rfl, ?_⟩
  show (position_52w_raw hist).map _ = none
  unfold position_52w_raw
  rw [if_pos hflat]
  rfl

/-- Witness for the amended C6 on the flat 60-bar series. -/
theorem position_52w_flat_nan_witness :
    50 ≤ histFlat60.length ∧ high_52w_raw histFlat60 = low_52w_raw histFlat60 ∧
    ∃ d, analyze_stock "F" histFlat60 infoEmpty = some d ∧ d.position_52w = none :=
  ⟨by with_unfolding_all decide, by with_unfolding_all decide,
    position_52w_flat_nan "F" histFlat60 infoEmpty
      (by with_unfolding_all decide) (by with_unfolding_all decide)⟩

/-! ## C5: RSI range and the zero-average-loss path -/

/-- Every entry of the gain series is nonnegative. -/
theorem gains_mem_nonneg (l : List ℚ) : ∀ x ∈ gains l, 0 ≤ x := by
  intro x hx
  cases l with
  | nil => simp [gains] at hx
  | cons a as =>
    simp only [gains, List.mem_cons, List.mem_map] at hx
    rcases hx with h | ⟨d, _, h⟩
    · simp [h]
    · rw [← h]; exact le_max_right d 0

/-- Every entry of the loss series is nonnegative. -/
theorem losses_mem_nonneg (l : List ℚ) : ∀ x ∈ losses l, 0 ≤ x := by
  intro x hx
  cases l with
  | nil => simp [losses] at hx
  | cons a as =>
    simp only [losses, List.mem_cons, List.mem_map] at hx
    rcases hx with h | ⟨d, _, h⟩
    · simp [h]
    · rw [← h]; exact le_max_right (-d) 0

/-- The trailing average gain, when defined, is nonnegative. -/
theorem avg_gain_nonneg (l : List ℚ) (g : ℚ) (hg : avg_gain l = some g) : 0 ≤ g := by
  unfold avg_gain rollingMeanLast at hg
  split at hg
  · exact absurd hg (by simp)
  · have hsum : 0 ≤ (lastWindow 14 (gains l)).sum :=
      List.sum_nonneg fun x hx => gains_mem_nonneg l x (List.drop_subset _ _ hx)
    have := Option.some.inj hg
    rw [← this]
    positivity

/-- C5 amended: with at least one full 14-diff window (both trailing
averages defined): when the average loss is positive the RSI is a finite
value in `[0, 100]`; when the average loss is zero but the average gain is
positive the result is `100` — but through the IEEE limit
`100 - 100/(1 + ∞)` of the unguarded division `rs = gain/loss`, not an
explicit fallback; and when both averages are zero (flat window) the
unguarded division is `0/0` and the result is `NaN` (`none`), not `100`. -/
theorem calculate_rsi_cases (prices : List ℚ) :
    (∀ g lo, avg_gain prices = some g → avg_loss prices = some lo → 0 < lo →
      ∃ r, calculate_rsi prices = some r ∧ 0 ≤ r ∧ r ≤ 100) ∧
    (∀ g, avg_gain prices = some g → avg_loss prices = some 0 → 0 < g →
      calculate_rsi prices = some 100) ∧
    (avg_gain prices = some 0 → avg_loss prices = some 0 →
      calculate_rsi prices = none) := by
  refine ⟨?_, ?_, ?_⟩
  · intro g lo hg hlo hpos
    have hg0 : 0 ≤ g := avg_gain_nonneg prices g hg
    have hlo_ne : ¬ lo = 0 := ne_of_gt hpos
    refine ⟨100 - 100 / (1 + g / lo), ?_, ?_, ?_⟩
    · simp only [calculate_rsi, hg, hlo, if_neg hlo_ne]
    · have hrs : 0 ≤ g / lo := div_nonneg hg0 hpos.le
      have h1 : (0:ℚ) < 1 + g / lo := by linarith
      have h2 : 100 / (1 + g / lo) ≤ 100 / 1 := by
        apply div_le_div_of_nonneg_left (by norm_num) one_pos
        linarith
      simp only [div_one] at h2
      linarith
    · have hrs : 0 ≤ g / lo := div_nonneg hg0 hpos.le
      have h1 : (0:ℚ) < 1 + g / lo := by linarith
      have h3 : 0 < 100 / (1 + g / lo) := by positivity
      linarith
  · intro g hg hlo hgpos
    have hg_ne : ¬ g = 0 := ne_of_gt hgpos
    simp [calculate_rsi, hg, hlo, hg_ne]
  · intro hg hlo
    simp [calculate_rsi, hg, hlo]

/-- A 15-bar alternating close series: both trailing averages are `1/2`. -/
def altCloses : List ℚ :=
  [100, 101, 100, 101, 100, 101, 100, 101, 100, 101, 100, 101, 100, 101, 100]

/-- Witness for the amended C5: on the alternating series the average loss
is positive and the RSI lands in `[0, 100]` (it is in fact `50`). -/
theorem calculate_rsi_cases_witness :
    avg_gain altCloses = some (1/2) ∧ avg_loss altCloses = some (1/2) ∧
    ∃ r, calculate_rsi altCloses = some r ∧ 0 ≤ r ∧ r ≤ 100 :=
  ⟨by with_unfolding_all decide, by with_unfolding_all decide,
    (calculate_rsi_cases altCloses).1 (1/2) (1/2)
      (by with_unfolding_all decide) (by with_unfolding_all decide)
      (by norm_num)⟩

/-- C5, counterexample to the claim as stated: on a flat 15-bar series the
trailing average loss is zero, yet `calculate_rsi` is `NaN` (`none`) — it
does not return `100`, and the zero-loss path runs through the unguarded
division `rs = gain/loss`, not an explicit fallback. -/
theorem calculate_rsi_counterexample :
    avg_loss (List.replicate 15 (100:ℚ)) = some 0 ∧
    calculate_rsi (List.replicate 15 (100:ℚ)) = none ∧
    ¬ calculate_rsi (List.replicate 15 (100:ℚ)) = some 100 := by
  with_unfolding_all decide

/-! ## C1: the ranked shortlist -/

/-- `scoreLe` is transitive. -/
theorem scoreLe_trans : ∀ a b c : ScoredStock,
    scoreLe a b = true → scoreLe b c = true → scoreLe a c = true := by
  intro a b c hab hbc
  simp only [scoreLe, decide_eq_true_eq] at hab hbc ⊢
  exact le_trans hbc hab

/-- `scoreLe` is total. -/
theorem scoreLe_total : ∀ a b : ScoredStock, (scoreLe a b || scoreLe b a) = true := by
  intro a b
  simp only [scoreLe, Bool.or_eq_true, decide_eq_true_eq]
  exact le_total b.movement_score a.movement_score

/-- Stability of the descending sort: the records of any fixed score
appear in the sorted list exactly as they appear in the input, i.e. in
original scan order. -/
theorem mergeSort_filter_score (l : List ScoredStock) (s : ℚ) :
    ((l.mergeSort scoreLe).filter fun x => decide (x.movement_score = s)) =
      l.filter fun x => decide (x.movement_score = s) := by
  set p : ScoredStock → Bool := fun x => decide (x.movement_score = s) with hp
  have hself : (l.filter p).filter p = l.filter p := by
    rw [List.filter_eq_self]
    intro a ha
    exact (List.mem_filter.mp ha).2
  have hchain : (l.filter p).Pairwise fun a b => scoreLe a b = true := by
    apply List.pairwise_of_forall_mem_list
    intro a ha b hb
    have ha2 : a.movement_score = s := by
      have := (List.mem_filter.mp ha).2
      simpa [hp] using this
    have hb2 : b.movement_score = s := by
      have := (List.mem_filter.mp hb).2
      simpa [hp] using this
    simp [scoreLe, ha2, hb2]
  have h1 : (l.filter p).Sublist (l.mergeSort scoreLe) :=
    List.sublist_mergeSort scoreLe_trans scoreLe_total hchain (List.filter_sublist l)
  have h2 : (l.filter p).Sublist ((l.mergeSort scoreLe).filter p) := by
    have h3 := h1.filter p
    rwa [hself] at h3
  have hperm : ((l.mergeSort scoreLe).filter p).Perm (l.filter p) :=
    (List.mergeSort_perm l scoreLe).filter p
  exact (h2.eq_of_length hperm.length_eq.symm).symm

/-- C1: for every watchlist and limit, `get_top_movers` returns exactly
the first `limit` records of a list `sorted` that is a permutation of the
successful analysis records, is ordered by `movement_score` descending,
and — within every equal-score class — preserves the original watchlist
scan order (the filter conjunct: stable tie-break by scan order, not
completion order).  Those three properties determine `sorted` uniquely.
The final conjunct gives `min limit successes` as the output length: all
of them when fewer than `limit` succeeded, never padded, and the function
is total (never errors). -/
theorem get_top_movers_ranked_shortlist (fetch : String → List Bar)
    (info : String → StaticInfo) (watchlist : List String) (limit : ℕ) :
    ∃ sorted : List ScoredStock,
      sorted.Perm (analyzed_stocks fetch info watchlist) ∧
      (sorted.Pairwise fun a b => b.movement_score ≤ a.movement_score) ∧
      (∀ s : ℚ, (sorted.filter fun x => decide (x.movement_score = s)) =
        ((analyzed_stocks fetch info watchlist).filter
          fun x => decide (x.movement_score = s))) ∧
      get_top_movers fetch info watchlist limit = sorted.take limit ∧
      (get_top_movers fetch info watchlist limit).length =
        min limit (analyzed_stocks fetch info watchlist).length := by
  refine ⟨(analyzed_stocks fetch info watchlist).mergeSort scoreLe, ?_, ?_, ?_, rfl, ?_⟩
  · exact List.mergeSort_perm _ scoreLe
  · have h := List.sorted_mergeSort scoreLe_trans scoreLe_total
      (analyzed_stocks fetch info watchlist)
    exact h.imp fun hab => by simpa [scoreLe, decide_eq_true_eq] using hab
  · intro s
    exact mergeSort_filter_score _ s
  · show (((analyzed_stocks fetch info watchlist).mergeSort scoreLe).take limit).length = _
    rw [List.length_take, (List.mergeSort_perm _ scoreLe).length_eq]

/-- Witness for C1 at a concrete watchlist. -/
theorem get_top_movers_ranked_shortlist_witness :
    ∃ sorted : List ScoredStock,
      sorted.Perm (analyzed_stocks (fun _ => histFlat50) (fun _ => infoEmpty) ["B"]) ∧
      (sorted.Pairwise fun a b => b.movement_score ≤ a.movement_score) ∧
      (∀ s : ℚ, (sorted.filter fun x => decide (x.movement_score = s)) =
        ((analyzed_stocks (fun _ => histFlat50) (fun _ => infoEmpty) ["B"]).filter
          fun x => decide (x.movement_score = s))) ∧
      get_top_movers (fun _ => histFlat50) (fun _ => infoEmpty) ["B"] 5 = sorted.take 5 ∧
      (get_top_movers (fun _ => histFlat50) (fun _ => infoEmpty) ["B"] 5).length =
        min 5 (analyzed_stocks (fun _ => histFlat50) (fun _ => infoEmpty) ["B"]).length :=
  get_top_movers_ranked_shortlist (fun _ => histFlat50) (fun _ => infoEmpty) ["B"] 5

/-! ## C2 / C10: the movement score and the rounded record fields -/

/-- Unpacking membership in the collected successes: every scored stock
comes from a successful `analyze_stock` on some watchlist symbol, with the
score computed from the stored record fields. -/
theorem mem_analyzed_stocks (fetch : String → List Bar) (info : String → StaticInfo)
    (watchlist : List String) (s : ScoredStock)
    (hs : s ∈ analyzed_stocks fetch info watchlist) :
    ∃ symbol ∈ watchlist,
      analyze_stock symbol (fetch symbol) (info symbol) = some s.data ∧
      s.movement_score = |s.data.daily_change_pct| * s.data.volume_ratio := by
  unfold analyzed_stocks at hs
  rcases List.mem_filterMap.mp hs with ⟨symbol, hmem, heq⟩
  rcases Option.map_eq_some'.mp heq with ⟨d, hd, hfd⟩
  subst hfd
  exact ⟨symbol, hmem, hd, rfl⟩

/-- C2: every record of the ranked output carries
`movement_score = |daily_change_pct| * volume_ratio`, computed from the
`daily_change_pct` and `volume_ratio` fields stored in the record. -/
theorem movement_score_def (fetch : String → List Bar) (info : String → StaticInfo)
    (watchlist : List String) (limit : ℕ) (s : ScoredStock)
    (hs : s ∈ get_top_movers fetch info watchlist limit) :
    s.movement_score = |s.data.daily_change_pct| * s.data.volume_ratio := by
  have h1 : s ∈ (analyzed_stocks fetch info watchlist).mergeSort scoreLe :=
    List.mem_of_mem_take hs
  have h2 : s ∈ analyzed_stocks fetch info watchlist :=
    (List.mergeSort_perm _ scoreLe).mem_iff.mp h1
  obtain ⟨symbol, _, _, hscore⟩ := mem_analyzed_stocks fetch info watchlist s h2
  exact hscore

/-- The concrete scored record produced on the flat 50-bar history. -/
def scoredFlat : ScoredStock := { data := recFlat50, movement_score := 0 }

/-- Witness for C2 on a concrete one-ticker watchlist. -/
theorem movement_score_def_witness :
    scoredFlat ∈ get_top_movers (fun _ => histFlat50) (fun _ => infoEmpty) ["B"] 5 ∧
    scoredFlat.movement_score =
      |scoredFlat.data.daily_change_pct| * scoredFlat.data.volume_ratio :=
  ⟨by with_unfolding_all decide,
    movement_score_def (fun _ => histFlat50) (fun _ => infoEmpty) ["B"] 5 scoredFlat
      (by with_unfolding_all decide)⟩

/-! ## C3: skipping a ticker with insufficient data -/

/-- Behind the 50-bar guard, `analyze_stock` always succeeds (in this pure
model the guard is its only failure path). -/
theorem analyze_stock_isSome (symbol : String) (hist : List Bar) (info : StaticInfo)
    (h50 : 50 ≤ hist.length) :
    ∃ d, analyze_stock symbol hist info = some d := by
  unfold analyze_stock
  rw [if_neg (by omega)]
  exact ⟨_, rfl⟩

/-- Dropping an element on which the partial function fails does not
change a `filterMap`. -/
theorem filterMap_filter_ne {α β : Type} [DecidableEq α] (f : α → Option β)
    (l : List α) (t : α) (hf : f t = none) :
    l.filterMap f = (l.filter fun u => ¬ u = t).filterMap f := by
  induction l with
  | nil => rfl
  | cons a as ih =>
    by_cases ha : a = t
    · subst ha
      simp [List.filterMap_cons, List.filter_cons, hf, ih]
    · cases hfa : f a with
      | none => simp [List.filterMap_cons, List.filter_cons, hfa, ha, ih]
      | some b => simp [List.filterMap_cons, List.filter_cons, hfa, ha, ih]

/-- Projecting the scored records back to plain records inverts the
score-attaching map. -/
theorem map_data_analyzed_stocks (fetch : String → List Bar)
    (info : String → StaticInfo) (watchlist : List String) :
    ((analyzed_stocks fetch info watchlist).map fun x => x.data) =
      watchlist.filterMap fun u => analyze_stock u (fetch u) (info u) := by
  unfold analyzed_stocks
  induction watchlist with
  | nil => rfl
  | cons a as ih =>
    cases hfa : analyze_stock a (fetch a) (info a) with
    | none => simp [List.filterMap_cons, hfa, ih]
    | some d => simp [List.filterMap_cons, hfa, ih]

/-- C3: if ticker `t`'s series has fewer than 50 bars while every other
watchlist ticker has at least 50, then `analyze_stock` returns the typed
failure `none` for `t` (it does not raise), and — with a limit large
enough not to truncate — `get_top_movers` returns exactly the full records
of every other ticker: its projection to records is a permutation of the
successful analyses of the watchlist without `t`, and each other ticker's
complete record appears. -/
theorem insufficient_data_skipped (fetch : String → List Bar)
    (info : String → StaticInfo) (watchlist : List String) (limit : ℕ) (t : String)
    (hshort : (fetch t).length < 50)
    (hrest : ∀ u ∈ watchlist, ¬ u = t → 50 ≤ (fetch u).length)
    (hlim : watchlist.length ≤ limit) :
    analyze_stock t (fetch t) (info t) = none ∧
    ((get_top_movers fetch info watchlist limit).map fun x => x.data).Perm
      ((watchlist.filter fun u => ¬ u = t).filterMap
        fun u => analyze_stock u (fetch u) (info u)) ∧
    ∀ u ∈ watchlist, ¬ u = t →
      ∃ d, analyze_stock u (fetch u) (info u) = some d ∧
        d ∈ (get_top_movers fetch info watchlist limit).map fun x => x.data := by
  have hnone : analyze_stock t (fetch t) (info t) = none := by
    unfold analyze_stock
    rw [if_pos hshort]
  have hsortlen : ((analyzed_stocks fetch info watchlist).mergeSort scoreLe).length ≤ limit := by
    rw [(List.mergeSort_perm _ scoreLe).length_eq]
    exact le_trans (List.length_filterMap_le _ _) hlim
  have htake : get_top_movers fetch info watchlist limit =
      (analyzed_stocks fetch info watchlist).mergeSort scoreLe :=
    List.take_of_length_le hsortlen
  have hperm : ((get_top_movers fetch info watchlist limit).map fun x => x.data).Perm
      ((watchlist.filter fun u => ¬ u = t).filterMap
        fun u => analyze_stock u (fetch u) (info u)) := by
    rw [htake]
    have h1 : (((analyzed_stocks fetch info watchlist).mergeSort scoreLe).map
        fun x => x.data).Perm
        ((analyzed_stocks fetch info watchlist).map fun x => x.data) :=
      (List.mergeSort_perm _ scoreLe).map _
    rw [map_data_analyzed_stocks, filterMap_filter_ne _ _ t hnone] at h1
    exact h1
  refine ⟨hnone, hperm, ?_⟩
  intro u hu hut
  obtain ⟨d, hd⟩ := analyze_stock_isSome u (fetch u) (info u) (hrest u hu hut)
  refine ⟨d, hd, ?_⟩
  apply hperm.mem_iff.mpr
  apply List.mem_filterMap.mpr
  exact ⟨u, List.mem_filter.mpr ⟨hu, decide_eq_true hut⟩, hd⟩

/-- A fetch map for the C3 witness: ticker `"A"` gets only 10 bars, every
other symbol gets the full 50-bar history. -/
def fetchW : String → List Bar := fun s => if s = "A" then histShort10 else histFlat50

/-- Static info for the C3 witness. -/
def infoW : String → StaticInfo := fun _ => infoEmpty

/-- Witness for C3: the watchlist `["A", "B"]` where `"A"` has 10 bars. -/
theorem insufficient_data_skipped_witness :
    analyze_stock "A" (fetchW "A") (infoW "A") = none ∧
    ((get_top_movers fetchW infoW ["A", "B"] 2).map fun x => x.data).Perm
      ((["A", "B"].filter fun u => ¬ u = "A").filterMap
        fun u => analyze_stock u (fetchW u) (infoW u)) ∧
    ∀ u ∈ ["A", "B"], ¬ u = "A" →
      ∃ d, analyze_stock u (fetchW u) (infoW u) = some d ∧
        d ∈ (get_top_movers fetchW infoW ["A", "B"] 2).map fun x => x.data :=
  insufficient_data_skipped fetchW infoW ["A", "B"] 2 "A"
    (by with_unfolding_all decide) (by with_unfolding_all decide)
    (by with_unfolding_all decide)

/-! ## C10: every stored numeric field is rounded -/

/-- C10: every scored record of a scan comes from a successful
`analyze_stock`, whose stored fields are exactly the `round`ed raw
indicator values — price, change, SMAs, EMAs, volume ratio, 52-week
high/low and ATR to 2 decimals, RSI and 52-week position to 1 decimal —
and its `movement_score` is computed from the stored rounded
`daily_change_pct` and `volume_ratio`, not from the raw values (last
conjunct). -/
theorem record_fields_rounded (fetch : String → List Bar) (info : String → StaticInfo)
    (watchlist : List String) (s : ScoredStock)
    (hs : s ∈ analyzed_stocks fetch info watchlist) :
    ∃ symbol ∈ watchlist,
      analyze_stock symbol (fetch symbol) (info symbol) = some s.data ∧
      s.data.current_price = pyRound 2 (current_price_raw (fetch symbol)) ∧
      s.data.daily_change_pct = pyRound 2 (daily_change_raw (fetch symbol)) ∧
      s.data.rsi = (calculate_rsi (closes (fetch symbol))).map (fun r => pyRound 1 r) ∧
      s.data.sma20 = pyRound 2 (calculate_sma (closes (fetch symbol)) 20) ∧
      s.data.sma50 = pyRound 2 (calculate_sma (closes (fetch symbol)) 50) ∧
      s.data.ema12 = pyRound 2 (calculate_ema (closes (fetch symbol)) 12) ∧
      s.data.ema26 = pyRound 2 (calculate_ema (closes (fetch symbol)) 26) ∧
      s.data.volume_ratio = pyRound 2 (volume_ratio_raw (fetch symbol)) ∧
      s.data.high_52w = pyRound 2 (high_52w_raw (fetch symbol)) ∧
      s.data.low_52w = pyRound 2 (low_52w_raw (fetch symbol)) ∧
      s.data.position_52w = (position_52w_raw (fetch symbol)).map (fun p => pyRound 1 p) ∧
      s.data.atr = pyRound 2 (atr_raw (fetch symbol)) ∧
      s.movement_score =
        |pyRound 2 (daily_change_raw (fetch symbol))| *
          pyRound 2 (volume_ratio_raw (fetch symbol)) := by
  obtain ⟨symbol, hmem, hd, hscore⟩ := mem_analyzed_stocks fetch info watchlist s hs
  refine ⟨symbol, hmem, hd, ?_⟩
  unfold analyze_stock at hd
  split at hd
  · exact absurd hd (by simp)
  · have hlit := Option.some.inj hd
    rw [hscore, ← hlit]
    exact ⟨rfl, rfl, rfl, rfl, rfl, rfl, rfl, rfl, rfl, rfl, rfl, rfl, rfl⟩

/-- Witness for C10 on the concrete one-ticker watchlist. -/
theorem record_fields_rounded_witness :
    scoredFlat ∈ analyzed_stocks (fun _ => histFlat50) (fun _ => infoEmpty) ["B"] ∧
    ∃ symbol ∈ ["B"],
      analyze_stock symbol (histFlat50) (infoEmpty) = some scoredFlat.data ∧
      scoredFlat.data.current_price = pyRound 2 (current_price_raw histFlat50) ∧
      scoredFlat.data.daily_change_pct = pyRound 2 (daily_change_raw histFlat50) ∧
      scoredFlat.data.rsi = (calculate_rsi (closes histFlat50)).map (fun r => pyRound 1 r) ∧
      scoredFlat.data.sma20 = pyRound 2 (calculate_sma (closes histFlat50) 20) ∧
      scoredFlat.data.sma50 = pyRound 2 (calculate_sma (closes histFlat50) 50) ∧
      scoredFlat.data.ema12 = pyRound 2 (calculate_ema (closes histFlat50) 12) ∧
      scoredFlat.data.ema26 = pyRound 2 (calculate_ema (closes histFlat50) 26) ∧
      scoredFlat.data.volume_ratio = pyRound 2 (volume_ratio_raw histFlat50) ∧
      scoredFlat.data.high_52w = pyRound 2 (high_52w_raw histFlat50) ∧
      scoredFlat.data.low_52w = pyRound 2 (low_52w_raw histFlat50) ∧
      scoredFlat.data.position_52w = (position_52w_raw histFlat50).map (fun p => pyRound 1 p) ∧
      scoredFlat.data.atr = pyRound 2 (atr_raw histFlat50) ∧
      scoredFlat.movement_score =
        |pyRound 2 (daily_change_raw histFlat50)| * pyRound 2 (volume_ratio_raw histFlat50) :=
  ⟨by with_unfolding_all decide,
    record_fields_rounded (fun _ => histFlat50) (fun _ => infoEmpty) ["B"] scoredFlat
      (by with_unfolding_all decide)⟩

/-! ## C9: the market summary on fetch failure -/

/-- C9, counterexample to the claim as stated: when every fetch fails the
summary is not all-unavailable — `spy_change` (and `qqq_change`) come back
as the plain number `0`, an ordinary-looking value; only `vix` and
`spy_trend` carry the `"N/A"` marker. -/
theorem market_summary_counterexample :
    ¬ all_unavailable (get_market_summary none none none) ∧
    (get_market_summary none none none).spy_change = NumNA.num 0 ∧
    (get_market_summary none none none).qqq_change = NumNA.num 0 := by
  with_unfolding_all decide

/-- C9 amended: if any of the three fetches fails, `get_market_summary`
does not abort the run: it returns the fixed fallback summary, whose `vix`
and `spy_trend` fields carry the explicit `"N/A"` marker but whose
`spy_change` and `qqq_change` fields are the ordinary-looking number `0`
(not an unavailable marker). -/
theorem market_summary_fetch_failure (spy qqq vix : Option (List ℚ))
    (h : spy = none ∨ qqq = none ∨ vix = none) :
    get_market_summary spy qqq vix = fallback_summary := by
  unfold get_market_summary
  rcases h with h | h | h
  · subst h
    cases qqq <;> cases vix <;> rfl
  · subst h
    cases spy <;> cases vix <;> rfl
  · subst h
    cases spy <;> cases qqq <;> rfl

/-- Witness for the amended C9: the SPY fetch fails, the others succeed. -/
theorem market_summary_fetch_failure_witness :
    get_market_summary none (some [1, 2]) (some [3]) = fallback_summary :=
  market_summary_fetch_failure none (some [1, 2]) (some [3]) (Or.inl rfl)
